import Mathlib

/-!
Verification of the WordPress synchronization layer (`lib/wordpress.ts` and
`app/api/revalidate/route.ts`) of the next-wp repository.

The TypeScript code is shallowly embedded: JSON values are an inductive type,
JavaScript truthiness / property access / optional chaining are explicit
helper functions, and code paths that can throw are modelled with `Except`.
-/

namespace NextWP

/-- A JSON value, as produced by `response.json()`.  Numbers are modelled as
integers: every number handled by the embedded code (database ids, term ids,
counts, HTTP statuses) is integral and small enough that IEEE doubles
represent it exactly. -/
inductive JSON where
  | null
  | bool (b : Bool)
  | num (n : Int)
  | str (s : String)
  | arr (elems : List JSON)
  | obj (fields : List (String × JSON))
deriving Repr

mutual

def JSON.beq : JSON → JSON → Bool
  | .null, .null => true
  | .bool a, .bool b => a == b
  | .num a, .num b => a == b
  | .str a, .str b => a == b
  | .arr a, .arr b => JSON.beqList a b
  | .obj a, .obj b => JSON.beqFields a b
  | _, _ => false

def JSON.beqList : List JSON → List JSON → Bool
  | [], [] => true
  | a :: as, b :: bs => JSON.beq a b && JSON.beqList as bs
  | _, _ => false

def JSON.beqFields : List (String × JSON) → List (String × JSON) → Bool
  | [], [] => true
  | (k, v) :: as, (k2, v2) :: bs => k == k2 && JSON.beq v v2 && JSON.beqFields as bs
  | _, _ => false

end

instance : BEq JSON := ⟨JSON.beq⟩

mutual

theorem JSON.beq_iff : ∀ a b : JSON, JSON.beq a b = true ↔ a = b
  | .null, b => by cases b <;> simp [JSON.beq]
  | .bool a, b => by cases b <;> simp [JSON.beq]
  | .num a, b => by cases b <;> simp [JSON.beq]
  | .str a, b => by cases b <;> simp [JSON.beq]
  | .arr a, b => by
      cases b <;> simp [JSON.beq]
      exact JSON.beqList_iff a _
  | .obj a, b => by
      cases b <;> simp [JSON.beq]
      exact JSON.beqFields_iff a _

theorem JSON.beqList_iff : ∀ a b : List JSON, JSON.beqList a b = true ↔ a = b
  | [], b => by cases b <;> simp [JSON.beqList]
  | x :: xs, b => by
      cases b with
      | nil => simp [JSON.beqList]
      | cons y ys =>
          simp [JSON.beqList, Bool.and_eq_true]
          exact and_congr (JSON.beq_iff x y) (JSON.beqList_iff xs ys)

theorem JSON.beqFields_iff :
    ∀ a b : List (String × JSON), JSON.beqFields a b = true ↔ a = b
  | [], b => by cases b <;> simp [JSON.beqFields]
  | (k, v) :: xs, b => by
      cases b with
      | nil => simp [JSON.beqFields]
      | cons y ys =>
          obtain ⟨k2, v2⟩ := y
          simp [JSON.beqFields, Bool.and_eq_true, and_assoc]
          exact fun _ => and_congr (JSON.beq_iff v v2) (JSON.beqFields_iff xs ys)

end

instance : DecidableEq JSON := fun a b =>
  decidable_of_iff (JSON.beq a b = true) (JSON.beq_iff a b)

/-- JavaScript truthiness of a JSON value (`NaN` never arises here). -/
def JSON.truthy : JSON → Bool
  | .null => false
  | .bool b => b
  | .num n => n != 0
  | .str s => s != ""
  | .arr _ => true
  | .obj _ => true

/-- Association-list lookup used for object property access. -/
def jlookup (fields : List (String × JSON)) (k : String) : Option JSON :=
  match fields.find? (fun p => p.1 == k) with
  | some p => some p.2
  | none => none

/-- Plain JavaScript property access `v[k]` on a non-null value: objects look
up the field, arrays and strings expose `length`, other primitives box to a
wrapper with no own properties.  The result `none` models `undefined`. -/
def JSON.get : JSON → String → Option JSON
  | .obj fields, k => jlookup fields k
  | .arr l, k => if k = "length" then some (.num l.length) else none
  | .str s, k => if k = "length" then some (.num s.length) else none
  | _, _ => none

/-- Optional chaining `v?.[k]` on a possibly-undefined value: `undefined` and
`null` short-circuit to `undefined`; anything else is plain access. -/
def optGet : Option JSON → String → Option JSON
  | none, _ => none
  | some .null, _ => none
  | some v, k => v.get k

/-- Strict property access `v[k]` on a possibly-undefined value: accessing a
property of `undefined` or `null` throws a `TypeError`. -/
def strictGet : Option JSON → String → Except String (Option JSON)
  | none, _ => .error "TypeError: cannot read properties of undefined"
  | some .null, _ => .error "TypeError: cannot read properties of null"
  | some v, k => .ok (v.get k)

/-- JavaScript `a || b` where `a` may be `undefined`. -/
def jsOr (a : Option JSON) (b : JSON) : JSON :=
  match a with
  | some v => if v.truthy then v else b
  | none => b

/-- Truthiness of a possibly-undefined value. -/
def truthyU : Option JSON → Bool
  | none => false
  | some v => v.truthy

/-- `Object.entries(v)`: objects yield their fields, arrays and strings yield
index-keyed entries, primitives yield nothing. -/
def JSON.entries : JSON → List (String × JSON)
  | .obj fields => fields
  | .arr l => l.enum.map (fun p => (toString p.1, p.2))
  | .str s => s.data.enum.map (fun p => (toString p.1, .str (String.singleton p.2)))
  | _ => []

/-- `toLowerCase()` on the ASCII strings the backend emits: lower-case each
character. -/
def jsToLowerStr (s : String) : String := String.mk (s.data.map Char.toLower)

/-- `v?.toLowerCase()`: `undefined`/`null` short-circuit, strings lower-case,
anything else throws. -/
def jsToLowerOpt : Option JSON → Except String (Option String)
  | none => .ok none
  | some .null => .ok none
  | some (.str s) => .ok (some (jsToLowerStr s))
  | some _ => .error "TypeError: toLowerCase is not a function"

/-- The string `Array.prototype.join` produces for one element (also the
result of `String(x)` for every non-null value reachable here): `null` and
`undefined` become empty, nested arrays join with a comma. -/
def joinDisplay : JSON → String
  | .null => ""
  | .bool b => cond b "true" "false"
  | .num n => toString n
  | .str s => s
  | .arr l => String.intercalate "," (l.attach.map (fun x => joinDisplay x.1))
  | .obj _ => "[object Object]"
decreasing_by
  simp_wf
  have h1 := List.sizeOf_lt_of_mem x.2
  omega

/-! ## Base64 (`Buffer.from(s).toString("base64")`)

`lib/wordpress.ts` encodes pagination cursors with Node's base64 encoder.
We embed a byte-level base64 encoder and an independent decoder so that
"the cursor decodes to offset N" is a checkable statement. -/

def b64Alphabet : List Char :=
  "ABCDEFGHIJKLMNOPQRSTUVWXYZabcdefghijklmnopqrstuvwxyz0123456789+/".data

def b64Char (n : Nat) : Char := b64Alphabet.getD n 'A'

def b64DecChar (c : Char) : Option Nat :=
  let i := b64Alphabet.indexOf c
  if i < 64 then some i else none

/-- Base64-encode a byte list (standard padding). -/
def b64EncodeBytes : List Nat → String
  | [] => ""
  | [a] =>
      String.mk [b64Char (a / 4), b64Char (a % 4 * 16), '=', '=']
  | [a, b] =>
      String.mk [b64Char (a / 4), b64Char (a % 4 * 16 + b / 16), b64Char (b % 16 * 4), '=']
  | a :: b :: c :: rest =>
      String.mk [b64Char (a / 4), b64Char (a % 4 * 16 + b / 16),
                 b64Char (b % 16 * 4 + c / 64), b64Char (c % 64)] ++ b64EncodeBytes rest

/-- Base64-decode to a byte list; `none` on malformed input. -/
def b64DecodeChars : List Char → Option (List Nat)
  | c1 :: c2 :: c3 :: c4 :: rest => do
      let d1 ← b64DecChar c1
      let d2 ← b64DecChar c2
      if c3 = '=' then
        if c4 = '=' ∧ rest = [] then pure [d1 * 4 + d2 / 16] else none
      else do
        let d3 ← b64DecChar c3
        if c4 = '=' then
          if rest = [] then pure [d1 * 4 + d2 / 16, d2 % 16 * 16 + d3 / 4] else none
        else do
          let d4 ← b64DecChar c4
          let tail ← b64DecodeChars rest
          pure ([d1 * 4 + d2 / 16, d2 % 16 * 16 + d3 / 4, d3 % 4 * 64 + d4] ++ tail)
  | [] => some []
  | _ => none

/-- The bytes of an ASCII string (UTF-8 agrees with code points below 0x80;
every cursor string is ASCII). -/
def strBytes (s : String) : List Nat := s.data.map Char.toNat

/-! ## Pagination translator (`pageNumberToCursor`, part_000 lines 123–127) -/

/-- `pageNumberToCursor(page, perPage)` from the source:
`if (page <= 1) return null;` then base64-encode
`arrayconnection:${(page - 1) * perPage - 1}`. -/
def pageNumberToCursor (page perPage : Int) : Option String :=
  if page ≤ 1 then none
  else
    let offset := (page - 1) * perPage
    some (b64EncodeBytes (strBytes ("arrayconnection:" ++ toString (offset - 1))))

/-- Spec-side notion: a cursor token decodes (base64) to the backend
connection cursor for offset `off`, i.e. the string `arrayconnection:off`. -/
def cursorDecodesTo (cursor : String) (off : Int) : Prop :=
  b64DecodeChars cursor.data = some (strBytes ("arrayconnection:" ++ toString off))

instance (c : String) (off : Int) : Decidable (cursorDecodesTo c off) := by
  unfold cursorDecodesTo; infer_instance

/-! ## Rate limiter (`app/api/revalidate/route.ts` lines 11–27)

The module-level mutable `requestLog` is threaded explicitly: each call takes
the current log and returns the verdict together with the updated log. -/

def RATE_LIMIT_WINDOW_MS : Nat := 60000
def RATE_LIMIT_MAX : Nat := 30

/-- The `while` prune loop: drop leading entries with
`requestLog[0] < now - RATE_LIMIT_WINDOW_MS`.  Timestamps are `Nat`
milliseconds; truncated subtraction agrees with the JS comparison since
timestamps are never negative. -/
def pruneLog (now : Nat) (log : List Nat) : List Nat :=
  log.dropWhile (fun t => t < now - RATE_LIMIT_WINDOW_MS)

/-- `isRateLimited()`: prune, then reject if the window already holds
`RATE_LIMIT_MAX` entries, otherwise record the request. -/
def isRateLimited (now : Nat) (log : List Nat) : Bool × List Nat :=
  let pruned := pruneLog now log
  if RATE_LIMIT_MAX ≤ pruned.length then (true, pruned)
  else (false, pruned ++ [now])

/-- Run a sequence of requests (by timestamp) against the limiter, starting
from a given log; returns each request's verdict and the final log. -/
def runLimiter : List Nat → List Nat → List Bool × List Nat
  | [], log => ([], log)
  | t :: ts, log =>
      let step := isRateLimited t log
      let rest := runLimiter ts step.2
      (step.1 :: rest.1, rest.2)

/-! ## Webhook handler (`app/api/revalidate/route.ts` lines 33–220)

`crypto.createHmac("sha256", secret).update(body).digest("hex")` is external
library code, modelled as an oracle parameter `hmac : secret → body → hex`.
`timingSafeEqual` throws on length mismatch and the call site catches it and
returns `false`, so both verifiers reduce to string equality. -/

/-- `verifySignature(body, signature, secret)`. -/
def verifySignature (hmac : String → String → String)
    (body : String) (signature : Option String) (secret : String) : Bool :=
  match signature with
  | none => false
  | some s => s == hmac secret body

/-- `verifySecret(headerSecret, envSecret)`: `!headerSecret || !envSecret`
is falsy-guarded (empty strings fail), then constant-time equality. -/
def verifySecret (headerSecret : Option String) (envSecret : String) : Bool :=
  match headerSecret with
  | none => false
  | some h => if h = "" ∨ envSecret = "" then false else h == envSecret

/-- An incoming webhook request.  `parsedBody` is the outcome of
`JSON.parse(rawBody)` (`none` = parse throws); it is supplied alongside the
raw text rather than re-parsed, since the handler signs the raw bytes but
consumes the parsed value. -/
structure WebhookRequest where
  sigHeader : Option String
  secretHeader : Option String
  rawBody : String
  parsedBody : Option JSON

/-- The response the handler produces: HTTP status, optional Retry-After
header, and the cache tags passed to `revalidateTag` (in call order). -/
structure WebhookResponse where
  status : Nat
  retryAfter : Option String
  tags : List String
deriving Repr, DecidableEq

/-- Truthiness of a nullable string header (empty strings are falsy). -/
def strTruthy : Option String → Bool
  | none => false
  | some s => s != ""

/-- `/^[a-z0-9_-]+$/i.test(contentType)` (line 133). -/
def contentTypePattern (s : String) : Bool :=
  s ≠ "" && s.data.all (fun c => c.isAlpha || c.isDigit || c = '_' || c = '-')

/-- String interpolation `${contentId}` for the values that reach it. -/
def interpolate (v : JSON) : String :=
  match v with
  | .null => "null"
  | .bool b => cond b "true" "false"
  | .num n => toString n
  | .str s => s
  | .arr l => String.intercalate "," (l.attach.map (fun x => joinDisplay x.1))
  | .obj _ => "[object Object]"

/-- The `revalidateTag` calls made for a validated `{contentType, contentId}`
notification (lines 148–189), in order. -/
def revalidationTags (contentType : String) (contentId : Option JSON) : List String :=
  let idPart : List String → List String := fun mk =>
    match contentId with
    | some v => if v.truthy then mk else []
    | none => []
  let idStr : String := match contentId with
    | some v => interpolate v
    | none => ""
  ["wordpress"] ++
  (if contentType = "post" then
    ["posts"] ++ idPart [s!"post-{idStr}"] ++ ["posts-page-1"]
  else if contentType = "category" then
    ["categories"] ++ idPart [s!"posts-category-{idStr}", s!"category-{idStr}"]
  else if contentType = "tag" then
    ["tags"] ++ idPart [s!"posts-tag-{idStr}", s!"tag-{idStr}"]
  else if contentType = "author" ∨ contentType = "user" then
    ["authors"] ++ idPart [s!"posts-author-{idStr}", s!"author-{idStr}"]
  else if contentType = "options" ∨ contentType = "options-page" then
    ["options-pages"] ++ idPart [s!"options-page-{idStr}"]
  else
    [s!"cpt-{contentType}"] ++ idPart [s!"cpt-{contentType}-{idStr}"]) ++
  ["content-types"]

/-- The `POST` handler, as a function of the HMAC oracle, the configured
secret (`none` = env var unset), the rate-limit verdict for this request,
and the request.  Mirrors the control flow of lines 76–220; revalidation
itself is effect-free here and never throws, so the 500 fallback of the
inner catch is unreachable in the model. -/
def webhookPOST (hmac : String → String → String) (envSecret : Option String)
    (rateLimited : Bool) (req : WebhookRequest) : WebhookResponse :=
  if rateLimited then
    { status := 429, retryAfter := some "60", tags := [] }
  else
    match envSecret with
    | none => { status := 500, retryAfter := none, tags := [] }
    | some secret =>
      if secret = "" then { status := 500, retryAfter := none, tags := [] }
      else
        let isValid :=
          if strTruthy req.sigHeader then
            verifySignature hmac req.rawBody req.sigHeader secret
          else
            verifySecret req.secretHeader secret
        if ¬ isValid then { status := 401, retryAfter := none, tags := [] }
        else
          match req.parsedBody with
          | none => { status := 400, retryAfter := none, tags := [] }
          | some .null =>
            -- `JSON.parse` yielded `null`: the destructuring
            -- `const { contentType, contentId } = requestBody` throws and the
            -- outer catch answers 500.
            { status := 500, retryAfter := none, tags := [] }
          | some body =>
            let contentType := optGet (some body) "contentType"
            match contentType with
            | some (.str ct) =>
                if ct = "" then { status := 400, retryAfter := none, tags := [] }
                else if ¬ contentTypePattern ct then
                  { status := 400, retryAfter := none, tags := [] }
                else
                  { status := 200, retryAfter := none,
                    tags := revalidationTags ct (optGet (some body) "contentId") }
            | _ => { status := 400, retryAfter := none, tags := [] }

/-! ## Response transformers (part_000 lines 578–776, 1583–1623)

Output shapes mirror the constructed object literals.  Fields whose value the
code computes with `||` defaults keep type `JSON` (the code does not coerce a
malformed value), constant fields keep their literal type.  `{ rendered: x }`
wrappers and the singleton `[...]` around the embedded featured media are
flattened; `protected: false` is a constant and is omitted. -/

structure TaxTerm where
  id : JSON
  name : JSON
  slug : JSON
deriving Repr, DecidableEq

structure EmbeddedAuthor where
  id : JSON
  name : JSON
  slug : JSON
  /-- `avatar_urls`: `author.avatar?.url ? { "96": url } : {}`. -/
  avatar96 : Option JSON
deriving Repr, DecidableEq

structure SeoImage where
  sourceUrl : JSON
  width : JSON
  height : JSON
  altText : JSON
deriving Repr, DecidableEq

structure SeoMetadata where
  title : JSON
  metaDesc : JSON
  canonical : JSON
  opengraphTitle : JSON
  opengraphDescription : JSON
  opengraphUrl : JSON
  opengraphImage : Option SeoImage
  twitterTitle : JSON
  twitterDescription : JSON
  twitterImage : Option SeoImage
deriving Repr, DecidableEq

def transformSeoImage (o : Option JSON) : SeoImage :=
  { sourceUrl := jsOr (optGet o "sourceUrl") (.str "")
    width := jsOr (optGet o "width") (.num 0)
    height := jsOr (optGet o "height") (.num 0)
    altText := jsOr (optGet o "altText") (.str "") }

/-- `transformSeo` (lines 578–606). -/
def transformSeo (seo : Option JSON) : Option SeoMetadata :=
  match seo with
  | none => none
  | some v =>
    if ¬ v.truthy then none
    else
      some
        { title := jsOr (v.get "title") (.str "")
          metaDesc := jsOr (v.get "metaDesc") (.str "")
          canonical := jsOr (v.get "canonical") (.str "")
          opengraphTitle := jsOr (v.get "opengraphTitle") (.str "")
          opengraphDescription := jsOr (v.get "opengraphDescription") (.str "")
          opengraphUrl := jsOr (v.get "opengraphUrl") (.str "")
          opengraphImage :=
            if truthyU (v.get "opengraphImage") then some (transformSeoImage (v.get "opengraphImage"))
            else none
          twitterTitle := jsOr (v.get "twitterTitle") (.str "")
          twitterDescription := jsOr (v.get "twitterDescription") (.str "")
          twitterImage :=
            if truthyU (v.get "twitterImage") then some (transformSeoImage (v.get "twitterImage"))
            else none }

structure MediaSize where
  file : JSON
  width : Int
  height : Int
  mime_type : JSON
  source_url : JSON
deriving Repr, DecidableEq

structure MediaDetails where
  width : JSON
  height : JSON
  file : JSON
  sizes : List (String × MediaSize)
deriving Repr, DecidableEq

structure FeaturedMedia where
  id : JSON
  guid : JSON
  title : JSON
  caption : JSON
  alt_text : JSON
  mime_type : JSON
  media_details : MediaDetails
  source_url : JSON
deriving Repr, DecidableEq

/-- Leading-decimal `parseInt` (radix-10; the embedded call sites never see
hex prefixes). `none` models `NaN`. -/
def parseIntStr (s : String) : Option Int :=
  let t := s.data.dropWhile (fun c => c.isWhitespace)
  let signed : Int × List Char :=
    match t with
    | '-' :: r => (-1, r)
    | '+' :: r => (1, r)
    | r => (1, r)
  let digits := signed.2.takeWhile (fun c => c.isDigit)
  if digits.isEmpty then none
  else some (signed.1 * (digits.foldl (fun a c => a * 10 + (c.toNat - 48)) 0 : Nat))

/-- `parseInt(x)`: `undefined` gives `NaN`; otherwise coerce to string and
parse. -/
def jsParseInt (v : Option JSON) : Option Int :=
  match v with
  | none => none
  | some w => parseIntStr (interpolate w)

/-- JS object-assignment semantics for `sizes[key] = value`: replace in
place or append. -/
def upsert (m : List (String × MediaSize)) (k : String) (v : MediaSize) :
    List (String × MediaSize) :=
  if m.any (fun p => p.1 == k) then m.map (fun p => if p.1 = k then (k, v) else p)
  else m ++ [(k, v)]

def mkMediaSize (s : JSON) : MediaSize :=
  { file := jsOr (s.get "file") (.str "")
    width := (jsParseInt (s.get "width")).getD 0
    height := (jsParseInt (s.get "height")).getD 0
    mime_type := jsOr (s.get "mimeType") (.str "")
    source_url := jsOr (s.get "sourceUrl") (.str "") }

/-- The `for (const s of ...sizes)` accumulation: falsy entries are skipped,
keys collide by overwrite. -/
def buildSizes (l : List JSON) : List (String × MediaSize) :=
  l.foldl
    (fun m s =>
      if ¬ s.truthy then m
      else upsert m (interpolate (jsOr (s.get "name") (.str "unknown"))) (mkMediaSize s))
    []

/-- `transformFeaturedMedia` (lines 671–710).  The only throwing path is the
`for...of` over a truthy non-iterable `mediaDetails.sizes` (strings iterate
by character). -/
def transformFeaturedMedia (node : JSON) : Except String FeaturedMedia := do
  let sizesV := optGet (node.get "mediaDetails") "sizes"
  let sizes ←
    if truthyU sizesV then
      match sizesV with
      | some (.arr l) => Except.ok (buildSizes l)
      | some (.str s) => Except.ok (buildSizes (s.data.map (fun c => .str (String.singleton c))))
      | _ => Except.error "TypeError: sizes is not iterable"
    else Except.ok []
  Except.ok
    { id := jsOr (node.get "databaseId") (.num 0)
      guid := jsOr (node.get "sourceUrl") (.str "")
      title := jsOr (node.get "title") (.str "")
      caption := jsOr (node.get "caption") (.str "")
      alt_text := jsOr (node.get "altText") (.str "")
      mime_type := jsOr (node.get "mimeType") (.str "image/jpeg")
      media_details :=
        { width := jsOr (optGet (node.get "mediaDetails") "width") (.num 0)
          height := jsOr (optGet (node.get "mediaDetails") "height") (.num 0)
          file := jsOr (optGet (node.get "mediaDetails") "file") (.str "")
          sizes := sizes }
      source_url := jsOr (node.get "sourceUrl") (.str "") }

structure Post where
  id : JSON
  date : JSON
  date_gmt : JSON
  modified : JSON
  modified_gmt : JSON
  slug : JSON
  status : String
  link : JSON
  guid : JSON
  title : JSON
  content : JSON
  excerpt : Option JSON
  author : JSON
  featured_media : JSON
  comment_status : String
  ping_status : String
  sticky : JSON
  categories : List JSON
  tags : List JSON
  embeddedAuthor : Option EmbeddedAuthor
  embeddedFeaturedMedia : Option FeaturedMedia
  wpTerm : List TaxTerm
  seo : Option SeoMetadata
deriving Repr, DecidableEq

/-- `x ? x : undefined` (used for excerpt/title wrappers). -/
def truthyOpt (v : Option JSON) : Option JSON :=
  match v with
  | some x => if x.truthy then some x else none
  | none => none

def mkEmbeddedAuthor (author : Option JSON) : Option EmbeddedAuthor :=
  match author with
  | some a =>
    if a.truthy then
      some
        { id := jsOr (a.get "databaseId") (.num 0)
          name := jsOr (a.get "name") (.str "")
          slug := jsOr (a.get "slug") (.str "")
          avatar96 :=
            if truthyU (optGet (a.get "avatar") "url") then optGet (a.get "avatar") "url"
            else none }
    else none
  | none => none

def mkEmbeddedFeaturedMedia (fm : Option JSON) : Except String (Option FeaturedMedia) :=
  match fm with
  | some v =>
    if v.truthy then (transformFeaturedMedia v).map some
    else Except.ok none
  | none => Except.ok none

/-- `transformPost` (lines 608–669).  Throwing paths: property access on a
`null` node, `.map` on a truthy non-array `categories.nodes`/`tags.nodes`,
`?.toLowerCase()` on a non-string status field, and the featured-media sizes
loop. -/
def transformPost (node : JSON) : Except String Post := do
  let featuredMedia := optGet (← strictGet (some node) "featuredImage") "node"
  let categoriesV := jsOr (optGet (← strictGet (some node) "categories") "nodes") (.arr [])
  let tagsV := jsOr (optGet (← strictGet (some node) "tags") "nodes") (.arr [])
  let author := optGet (← strictGet (some node) "author") "node"
  -- The returned object literal evaluates its fields top to bottom, so the
  -- three `?.toLowerCase()` calls (lines 621/631/632) run before the
  -- `.map` calls on categories/tags (lines 636/639) and before
  -- `transformFeaturedMedia` (line 657).
  let statusLower ← jsToLowerOpt (node.get "status")
  let commentLower ← jsToLowerOpt (node.get "commentStatus")
  let pingLower ← jsToLowerOpt (node.get "pingStatus")
  let catList ←
    match categoriesV with
    | .arr l => Except.ok l
    | _ => Except.error "TypeError: map is not a function"
  let tagList ←
    match tagsV with
    | .arr l => Except.ok l
    | _ => Except.error "TypeError: map is not a function"
  let embFM ← mkEmbeddedFeaturedMedia featuredMedia
  Except.ok
    { id := jsOr (node.get "databaseId") (.num 0)
      date := jsOr (node.get "date") (.str "")
      date_gmt := jsOr (node.get "dateGmt") (jsOr (node.get "date") (.str ""))
      modified := jsOr (node.get "modified") (.str "")
      modified_gmt := jsOr (node.get "modifiedGmt") (jsOr (node.get "modified") (.str ""))
      slug := jsOr (node.get "slug") (.str "")
      status := (match statusLower with
        | some s => if s = "" then "publish" else s
        | none => "publish")
      link := jsOr (node.get "link") (.str "")
      guid := jsOr (node.get "link") (.str "")
      title := jsOr (node.get "title") (.str "")
      content := jsOr (node.get "content") (.str "")
      excerpt := truthyOpt (node.get "excerpt")
      author := jsOr (optGet author "databaseId") (.num 0)
      featured_media := jsOr (optGet featuredMedia "databaseId") (.num 0)
      comment_status := (match commentLower with
        | some s => if s = "" then "closed" else s
        | none => "closed")
      ping_status := (match pingLower with
        | some s => if s = "" then "closed" else s
        | none => "closed")
      sticky := jsOr (node.get "isSticky") (.bool false)
      categories := catList.filterMap (fun c =>
        match optGet (some c) "databaseId" with
        | some .null => none
        | some v => some v
        | none => none)
      tags := tagList.filterMap (fun t =>
        match optGet (some t) "databaseId" with
        | some .null => none
        | some v => some v
        | none => none)
      embeddedAuthor := mkEmbeddedAuthor author
      embeddedFeaturedMedia := embFM
      wpTerm := catList.map (fun c =>
        { id := jsOr (optGet (some c) "databaseId") (.num 0)
          name := jsOr (optGet (some c) "name") (.str "")
          slug := jsOr (optGet (some c) "slug") (.str "") })
      seo := transformSeo (node.get "seo") }

structure ContentNode where
  id : JSON
  slug : JSON
  date : JSON
  modified : JSON
  link : JSON
  status : String
  title : Option JSON
  content : Option JSON
  excerpt : Option JSON
  author : Option JSON
  featured_media : Option JSON
  embeddedAuthor : Option EmbeddedAuthor
  embeddedFeaturedMedia : Option FeaturedMedia
  contentType : String
  seo : Option SeoMetadata
deriving Repr, DecidableEq

/-- `transformContentNode` (lines 1583–1623). -/
def transformContentNode (node : JSON) (contentTypeName : String) :
    Except String ContentNode := do
  let featuredMedia := optGet (← strictGet (some node) "featuredImage") "node"
  let author := optGet (← strictGet (some node) "author") "node"
  let statusLower ← jsToLowerOpt (node.get "status")
  let embFM ← mkEmbeddedFeaturedMedia featuredMedia
  Except.ok
    { id := jsOr (node.get "databaseId") (.num 0)
      slug := jsOr (node.get "slug") (.str "")
      date := jsOr (node.get "date") (.str "")
      modified := jsOr (node.get "modified") (.str "")
      link := jsOr (node.get "link") (.str "")
      status := (match statusLower with
        | some s => if s = "" then "publish" else s
        | none => "publish")
      title := truthyOpt (node.get "title")
      content := truthyOpt (node.get "content")
      excerpt := truthyOpt (node.get "excerpt")
      author := optGet author "databaseId"
      featured_media := optGet featuredMedia "databaseId"
      embeddedAuthor := mkEmbeddedAuthor author
      embeddedFeaturedMedia := embFM
      contentType := contentTypeName
      seo := transformSeo (node.get "seo") }

/-! ## GraphQL transport (`graphqlFetch`, part_000 lines 61–101)

The network is an oracle: `none` models a rejected `fetch`; a response
carries its HTTP status, status text, and the outcome of `response.json()`
(`none` = the body is not valid JSON). -/

structure HttpResp where
  status : Nat
  statusText : String
  body : Option JSON

/-- `WordPressAPIError` (lines 32–41) next to the other failure modes that
can escape `graphqlFetch` (config error, network rejection, JSON parse
failure, type errors while reading the envelope). -/
inductive WPError where
  | api (message : String) (status : Nat) (endpoint : String)
  | other (message : String)
deriving Repr, DecidableEq

/-- `response.ok`: status in the 2xx range. -/
def responseOk (status : Nat) : Bool := 200 ≤ status && status < 300

/-- Join conversion for one concatenated error message. -/
def joinDisplayU : Option JSON → String
  | none => ""
  | some v => joinDisplay v

/-- `graphqlFetch` (lines 61–101).  Result `Except.ok d` is the envelope's
`data` property (`none` = `undefined`). -/
def graphqlFetch (baseUrl : Option String) (resp : Option HttpResp) :
    Except WPError (Option JSON) :=
  if ¬ strTruthy baseUrl then .error (.other "WordPress URL not configured")
  else
    let url := baseUrl.getD "" ++ "/graphql"
    match resp with
    | none => .error (.other "fetch rejected")
    | some r =>
      if ¬ responseOk r.status then
        .error (.api ("WPGraphQL request failed: " ++ r.statusText) r.status url)
      else
        match r.body with
        | none => .error (.other "response body is not valid JSON")
        | some json =>
          match strictGet (some json) "errors" with
          | .error m => .error (.other m)
          | .ok errs =>
            if truthyU (optGet errs "length") then
              match errs with
              | some (.arr l) =>
                  match l.mapM (fun e => strictGet (some e) "message") with
                  | .ok msgs =>
                      .error (.api
                        ("WPGraphQL errors: " ++
                          String.intercalate ", " (msgs.map joinDisplayU))
                        200 url)
                  | .error m => .error (.other m)
              | _ => .error (.other "TypeError: map is not a function")
            else
              .ok (json.get "data")

/-! ## Paginated fetches (part_000 lines 783–856 and 1647–1703) -/

structure PaginationHeaders where
  total : Nat
  totalPages : Nat
deriving Repr, DecidableEq

structure PostsResult where
  items : List Post
  headers : PaginationHeaders
deriving Repr, DecidableEq

structure CPTResult where
  items : List ContentNode
  headers : PaginationHeaders
deriving Repr, DecidableEq

/-- `Math.ceil(total / perPage)`.  Exact for the ranges reached here (counts
are array lengths, `perPage` a small positive integer); for `perPage ≤ 0`
the JS result is `Infinity`/`NaN`, a region no claim touches, modelled as 0. -/
def jsMathCeilDiv (total : Nat) (perPage : Int) : Nat :=
  if perPage ≤ 0 then 0
  else (total + perPage.toNat - 1) / perPage.toNat

/-- `getPostsPaginated` (lines 783–856), without filter parameters (the
claims fix `filterParams = undefined`; filters only shape the query and the
cache tags, not the control flow).  The second component counts the GraphQL
requests issued.  `postsResp`/`countResp` are the network oracle's answers
to `POSTS_QUERY` and `POSTS_COUNT_QUERY`. -/
def getPostsPaginated (baseUrl : Option String) (postsResp countResp : Option HttpResp)
    (page perPage : Int) : PostsResult × Nat :=
  let _cursor := pageNumberToCursor page perPage
  let empty : PostsResult := ⟨[], ⟨0, 0⟩⟩
  if ¬ strTruthy baseUrl then (empty, 0)
  else
    match graphqlFetch baseUrl postsResp, graphqlFetch baseUrl countResp with
    | .ok postsData, .ok countData =>
      match (do
        let countNodesV ← strictGet (← strictGet countData "posts") "nodes"
        let lenV ← strictGet countNodesV "length"
        let total ←
          match lenV with
          | some (.num n) => Except.ok n.toNat
          | _ => Except.error "non-numeric length (unreachable for array responses)"
        let nodesV ← strictGet (← strictGet postsData "posts") "nodes"
        let nodes ←
          match nodesV with
          | some (.arr l) => Except.ok l
          | _ => Except.error "TypeError: map is not a function"
        let posts ← nodes.mapM transformPost
        Except.ok (posts, total) : Except String (List Post × Nat)) with
      | .ok (posts, total) => (⟨posts, ⟨total, jsMathCeilDiv total perPage⟩⟩, 2)
      | .error _ => (empty, 2)
    | _, _ => (empty, 2)

/-- `/^[a-z][a-z0-9_-]{0,49}$/` (`CPT_NAME_PATTERN`, line 1524):
case-sensitive, also the exact pattern quoted by the spec for taxonomy-key
validation. -/
def cptNamePattern (s : String) : Bool :=
  match s.data with
  | [] => false
  | c :: rest =>
      c.isLower && rest.length ≤ 49 &&
        rest.all (fun d => d.isLower || d.isDigit || d = '_' || d = '-')

/-- `toContentTypeEnum` (lines 1528–1533). -/
def toContentTypeEnum (name : String) : Except String String :=
  if ¬ cptNamePattern name then .error ("Invalid content type name: " ++ name)
  else .ok (String.toUpper (String.map (fun c => if c = '-' then '_' else c) name))

/-- `getCPTNodesPaginated` (lines 1647–1703).  `toContentTypeEnum` runs
before the configuration check and its exception escapes to the caller,
hence the `Except` result. -/
def getCPTNodesPaginated (baseUrl : Option String) (cptName : String)
    (collResp countResp : Option HttpResp) (page perPage : Int) :
    Except String (CPTResult × Nat) :=
  let _cursor := pageNumberToCursor page perPage
  match toContentTypeEnum cptName with
  | .error e => .error e
  | .ok _contentType =>
    let empty : CPTResult := ⟨[], ⟨0, 0⟩⟩
    if ¬ strTruthy baseUrl then .ok (empty, 0)
    else
      match graphqlFetch baseUrl collResp, graphqlFetch baseUrl countResp with
      | .ok collectionData, .ok countData =>
        match (do
          let cn ← strictGet countData "contentNodes"
          let total :=
            match jsOr (optGet (optGet cn "nodes") "length") (.num 0) with
            | .num n => n.toNat
            | _ => 0
          let coll ← strictGet collectionData "contentNodes"
          let nodeList ←
            match jsOr (optGet coll "nodes") (.arr []) with
            | .arr l => Except.ok l
            | _ => Except.error "TypeError: map is not a function"
          let items ← nodeList.mapM (fun n => transformContentNode n cptName)
          Except.ok (items, total) : Except String (List ContentNode × Nat)) with
        | .ok (items, total) => .ok (⟨items, ⟨total, jsMathCeilDiv total perPage⟩⟩, 2)
        | .error _ => .ok (empty, 2)
      | _, _ => .ok (empty, 2)

/-! ## REST extras (`filterACF` / `fetchContentExtras`, part_000 lines 1262–1431) -/

/-- `WP_STANDARD_KEYS` (lines 1262–1269). -/
def WP_STANDARD_KEYS : List String :=
  ["id", "date", "date_gmt", "guid", "modified", "modified_gmt",
   "slug", "status", "type", "link", "title", "content", "excerpt",
   "author", "featured_media", "comment_status", "ping_status",
   "sticky", "template", "format", "meta", "categories", "tags",
   "acf", "yoast_head", "yoast_head_json", "class_list", "_links",
   "parent", "menu_order", "_embedded"]

/-- `restEndpoint` (lines 1272–1276). -/
def restEndpoint (postType : String) : String :=
  if postType = "post" then "posts"
  else if postType = "page" then "pages"
  else postType

/-- The values `filterACF` drops: `null`, `false`, `""`, `[]`
(`undefined` cannot occur inside a parsed JSON object). -/
def jsDropped (v : JSON) : Bool :=
  v == .null || v == .bool false || v == .str "" || v == .arr []

/-- `filterACF` (lines 1279–1292): falsy or non-object input gives
`undefined`; otherwise keep the entries whose value is not dropped, and
collapse an empty result to `undefined`.  (`typeof x === "object"` holds for
arrays too, whose entries are index-keyed.) -/
def filterACF (acf : Option JSON) : Option (List (String × JSON)) :=
  match acf with
  | none => none
  | some v =>
    if ¬ v.truthy then none
    else
      match v with
      | .obj _ | .arr _ =>
        let filtered := v.entries.filter (fun p => ¬ jsDropped p.2)
        if filtered.isEmpty then none else some filtered
      | _ => none

/-- `/^[a-z][a-z0-9_-]{0,49}$/i` (line 1393): the taxonomy-key guard carries
the case-insensitive flag, so ASCII letters of either case are accepted. -/
def taxKeyPattern (s : String) : Bool :=
  match s.data with
  | [] => false
  | c :: rest =>
      c.isAlpha && rest.length ≤ 49 &&
        rest.all (fun d => d.isAlpha || d.isDigit || d = '_' || d = '-')

/-- The loop guards of lines 1386–1393: a response entry triggers a
taxonomy-term fetch iff its key is not reserved, its value is a non-empty
all-number array, and the key passes the (case-insensitive) pattern. -/
def isTaxCandidate (k : String) (v : JSON) : Bool :=
  !(WP_STANDARD_KEYS.contains k) &&
  (match v with
   | .arr l => !l.isEmpty && l.all (fun e => match e with | .num _ => true | _ => false)
   | _ => false) &&
  taxKeyPattern k

def termIdsOf (v : JSON) : List Int :=
  match v with
  | .arr l => l.map (fun e => match e with | .num n => n | _ => 0)
  | _ => []

structure CustomTaxonomyData where
  taxonomy : String
  label : String
  terms : List TaxTerm
deriving Repr, DecidableEq

/-- Environment of `fetchContentExtras`: configuration, the document
response (`none` = `!response.ok` or a rejected fetch), the term-resolution
oracle keyed by taxonomy key and id list (`none` = failed request, which the
inner catch silently skips), and the taxonomy label cache. -/
structure RestEnv where
  configured : Bool
  doc : Option JSON
  termsResp : String → List Int → Option JSON
  labelMap : String → Option String

structure ContentExtras where
  acf : Option (List (String × JSON))
  customTaxonomies : Option (List CustomTaxonomyData)
  /-- The follow-up term requests issued, as (taxonomy key, include ids). -/
  requests : List (String × List Int)
deriving Repr, DecidableEq

/-- `t.id || 0` etc. for one resolved term (a `null` element would make
`t.id` throw inside the inner try, skipping the taxonomy). -/
def termOf (t : JSON) : Except String TaxTerm :=
  match t with
  | .null => .error "TypeError: cannot read properties of null"
  | v =>
    .ok
      { id := jsOr (v.get "id") (.num 0)
        name := jsOr (v.get "name") (.str "")
        slug := jsOr (v.get "slug") (.str "") }

/-- `labelMap.get(key) || key`. -/
def labelFor (labelMap : String → Option String) (k : String) : String :=
  match labelMap k with
  | some l => if l = "" then k else l
  | none => k

/-- One iteration of the taxonomy loop (lines 1395–1420) for a candidate
entry: resolve terms, keep the taxonomy only for a non-empty array response
whose elements all read cleanly. -/
def resolveTaxonomy (env : RestEnv) (k : String) (ids : List Int) :
    Option CustomTaxonomyData :=
  match env.termsResp k ids with
  | some (.arr ts) =>
    if ts.isEmpty then none
    else
      match ts.mapM termOf with
      | .ok terms => some ⟨k, labelFor env.labelMap k, terms⟩
      | .error _ => none
  | _ => none

/-- `fetchContentExtras` (lines 1356–1431). -/
def fetchContentExtras (env : RestEnv) : ContentExtras :=
  if ¬ env.configured then ⟨none, none, []⟩
  else
    match env.doc with
    | none => ⟨none, none, []⟩
    | some .null =>
        -- `data.acf` on a null body throws; the outer catch answers `{}`.
        ⟨none, none, []⟩
    | some data =>
      let acf := filterACF (data.get "acf")
      let candidates := data.entries.filter (fun p => isTaxCandidate p.1 p.2)
      let requests := candidates.map (fun p => (p.1, termIdsOf p.2))
      let taxes := candidates.filterMap (fun p => resolveTaxonomy env p.1 (termIdsOf p.2))
      ⟨acf, if taxes.isEmpty then none else some taxes, requests⟩


/-! # Theorems

Supporting lemmas first, then one theorem per claim, with witnesses and
counterexamples where required. -/

theorem b64DecChar_b64Char {n : Nat} (h : n < 64) : b64DecChar (b64Char n) = some n := by
  interval_cases n <;> rfl

theorem b64Char_ne_pad {n : Nat} (h : n < 64) : ¬ b64Char n = '=' := by
  interval_cases n <;> decide

/-- Round trip: decoding an encoded byte list recovers it. -/
theorem b64_roundtrip : ∀ bs : List Nat, (∀ b ∈ bs, b < 256) →
    b64DecodeChars (b64EncodeBytes bs).data = some bs
  | [], _ => rfl
  | [a], h => by
      have ha : a < 256 := h a (by simp)
      have h1 : a / 4 < 64 := by omega
      have h2 : a % 4 * 16 < 64 := by omega
      show b64DecodeChars [b64Char (a / 4), b64Char (a % 4 * 16), '=', '='] = some [a]
      simp only [b64DecodeChars, b64DecChar_b64Char h1, b64DecChar_b64Char h2,
        Option.bind_eq_bind, Option.some_bind, if_pos rfl, and_self]
      simp
      omega
  | [a, b], h => by
      have ha : a < 256 := h a (by simp)
      have hb : b < 256 := h b (by simp [List.mem_cons])
      have h1 : a / 4 < 64 := by omega
      have h2 : a % 4 * 16 + b / 16 < 64 := by omega
      have h3 : b % 16 * 4 < 64 := by omega
      show b64DecodeChars
          [b64Char (a / 4), b64Char (a % 4 * 16 + b / 16), b64Char (b % 16 * 4), '=']
        = some [a, b]
      simp only [b64DecodeChars, b64DecChar_b64Char h1, b64DecChar_b64Char h2,
        b64DecChar_b64Char h3, Option.bind_eq_bind, Option.some_bind,
        if_neg (b64Char_ne_pad h3), if_pos rfl]
      simp
      omega
  | a :: b :: c :: rest, h => by
      have ha : a < 256 := h a (by simp)
      have hb : b < 256 := h b (by simp)
      have hc : c < 256 := h c (by simp)
      have h1 : a / 4 < 64 := by omega
      have h2 : a % 4 * 16 + b / 16 < 64 := by omega
      have h3 : b % 16 * 4 + c / 64 < 64 := by omega
      have h4 : c % 64 < 64 := by omega
      have ih := b64_roundtrip rest (fun x hx => h x (by simp [hx]))
      show b64DecodeChars
          ([b64Char (a / 4), b64Char (a % 4 * 16 + b / 16),
            b64Char (b % 16 * 4 + c / 64), b64Char (c % 64)] ++ (b64EncodeBytes rest).data)
        = some (a :: b :: c :: rest)
      simp only [List.cons_append, List.nil_append]
      simp only [b64DecodeChars, b64DecChar_b64Char h1, b64DecChar_b64Char h2,
        b64DecChar_b64Char h3, b64DecChar_b64Char h4, Option.bind_eq_bind,
        Option.some_bind, if_neg (b64Char_ne_pad h3), if_neg (b64Char_ne_pad h4), ih]
      simp
      omega

theorem strBytes_lt_256 (s : String) (h : ∀ c ∈ s.data, c.toNat < 256) :
    ∀ b ∈ strBytes s, b < 256 := by
  intro b hb
  simp only [strBytes, List.mem_map] at hb
  obtain ⟨c, hc, rfl⟩ := hb
  exact h c hc

theorem digitChar_ascii (n : Nat) : (Nat.digitChar n).toNat < 256 := by
  by_cases h : n < 16
  · interval_cases n <;> decide
  · simp only [Nat.digitChar,
      if_neg (by omega : ¬ n = 0), if_neg (by omega : ¬ n = 1),
      if_neg (by omega : ¬ n = 2), if_neg (by omega : ¬ n = 3),
      if_neg (by omega : ¬ n = 4), if_neg (by omega : ¬ n = 5),
      if_neg (by omega : ¬ n = 6), if_neg (by omega : ¬ n = 7),
      if_neg (by omega : ¬ n = 8), if_neg (by omega : ¬ n = 9),
      if_neg (by omega : ¬ n = 10), if_neg (by omega : ¬ n = 11),
      if_neg (by omega : ¬ n = 12), if_neg (by omega : ¬ n = 13),
      if_neg (by omega : ¬ n = 14), if_neg (by omega : ¬ n = 15)]
    decide

theorem toDigitsCore_ascii : ∀ (fuel n : Nat) (ds : List Char),
    (∀ c ∈ ds, c.toNat < 256) → ∀ c ∈ Nat.toDigitsCore 10 fuel n ds, c.toNat < 256 := by
  intro fuel
  induction fuel with
  | zero =>
      intro n ds hds c hc
      exact hds c hc
  | succ fuel ih =>
      intro n ds hds c hc
      simp only [Nat.toDigitsCore] at hc
      have hcons : ∀ x ∈ Nat.digitChar (n % 10) :: ds, Char.toNat x < 256 := by
        intro x hx
        rcases List.mem_cons.mp hx with h | h
        · subst h; exact digitChar_ascii _
        · exact hds x h
      split at hc
      · exact hcons c hc
      · exact ih (n / 10) _ hcons c hc

/-- Characters of an integer rendered by `toString` are ASCII (digits and a
possible leading minus sign). -/
theorem toString_int_ascii (n : Int) : ∀ c ∈ (toString n).data, c.toNat < 256 := by
  rcases n with m | m
  · show ∀ c ∈ (Nat.toDigits 10 m), c.toNat < 256
    exact toDigitsCore_ascii (m + 1) m [] (by intro c hc; cases hc)
  · show ∀ c ∈ ('-' :: Nat.toDigits 10 (m + 1)), c.toNat < 256
    intro c hc
    rcases List.mem_cons.mp hc with h | h
    · subst h; decide
    · exact toDigitsCore_ascii (m + 2) (m + 1) [] (by intro c hc; cases hc) c h

theorem cursorString_ascii (n : Int) :
    ∀ c ∈ ("arrayconnection:" ++ toString n).data, c.toNat < 256 := by
  intro c hc
  rw [String.data_append] at hc
  rcases List.mem_append.mp hc with h | h
  · have hall : ∀ c ∈ "arrayconnection:".data, c.toNat < 256 := by decide
    exact hall c h
  · exact toString_int_ascii n c h

/-- C4: for every `page ≥ 2` and `pageSize > 0`, `pageNumberToCursor`
returns a cursor that base64-decodes to the connection string for offset
`(page-1)*pageSize - 1`, and page 1 maps to `null`. -/
theorem pageNumberToCursor_decodes (page perPage : Int)
    (hpage : 2 ≤ page) (hsize : 0 < perPage) :
    (∃ c, pageNumberToCursor page perPage = some c ∧
        cursorDecodesTo c ((page - 1) * perPage - 1)) ∧
    pageNumberToCursor 1 perPage = none := by
  constructor
  · rw [pageNumberToCursor, if_neg (by omega)]
    refine ⟨_, rfl, ?_⟩
    exact b64_roundtrip _ (strBytes_lt_256 _ (cursorString_ascii _))
  · rw [pageNumberToCursor, if_pos le_rfl]

/-- C4 witness: page 3 at page size 9 decodes to offset 17. -/
theorem pageNumberToCursor_decodes_witness :
    (∃ c, pageNumberToCursor 3 9 = some c ∧ cursorDecodesTo c ((3 - 1) * 9 - 1)) ∧
    pageNumberToCursor 1 9 = none :=
  pageNumberToCursor_decodes 3 9 (by norm_num) (by norm_num)

/-- C7: with the backend base URL unconfigured, `getPostsPaginated(1, 9)`
returns empty items with zero totals, issues no network request, and does
not depend on what the network would have answered. -/
theorem getPostsPaginated_unconfigured (u : Option String)
    (postsResp countResp : Option HttpResp) (hu : strTruthy u = false) :
    getPostsPaginated u postsResp countResp 1 9 =
      ({ items := [], headers := { total := 0, totalPages := 0 } }, 0) := by
  simp [getPostsPaginated, hu]

/-- C7 witness: unset base URL, arbitrary network answers. -/
theorem getPostsPaginated_unconfigured_witness :
    getPostsPaginated none (some ⟨200, "OK", some (.obj [])⟩) none 1 9 =
      ({ items := [], headers := { total := 0, totalPages := 0 } }, 0) :=
  getPostsPaginated_unconfigured none (some ⟨200, "OK", some (.obj [])⟩) none rfl

/-- For a sorted log, the prune loop removes exactly the entries older than
the sliding window. -/
theorem pruneLog_keeps (now : Nat) (log : List Nat)
    (hs : List.Sorted (· ≤ ·) log) :
    pruneLog now log = log.filter (fun t => now - RATE_LIMIT_WINDOW_MS ≤ t) := by
  induction log with
  | nil => rfl
  | cons a as ih =>
      rw [List.sorted_cons] at hs
      by_cases h : a < now - RATE_LIMIT_WINDOW_MS
      · rw [pruneLog, List.dropWhile_cons_of_pos (by simp only [decide_eq_true_eq]; omega),
           List.filter_cons_of_neg (by simp only [decide_eq_true_eq]; omega)]
        exact ih hs.2
      · rw [pruneLog, List.dropWhile_cons_of_neg (by simp only [decide_eq_true_eq]; omega),
           List.filter_cons_of_pos (by simp only [decide_eq_true_eq]; omega)]
        congr 1
        symm
        refine List.filter_eq_self.mpr (fun x hx => ?_)
        simpa using le_trans (Nat.not_lt.mp h) (hs.1 x hx)

/-- C10: the limiter's log never exceeds 30 entries; a limited call records
nothing (the new log is exactly the pruned one), an admitted call appends
exactly its own timestamp, and pruning removes exactly the entries older
than the 60-second window. -/
theorem isRateLimited_log_invariants (now : Nat) (log : List Nat)
    (hsorted : List.Sorted (· ≤ ·) log) (hlen : log.length ≤ RATE_LIMIT_MAX) :
    (isRateLimited now log).2.length ≤ RATE_LIMIT_MAX ∧
    ((isRateLimited now log).1 = true → (isRateLimited now log).2 = pruneLog now log) ∧
    ((isRateLimited now log).1 = false →
        (isRateLimited now log).2 = pruneLog now log ++ [now]) ∧
    pruneLog now log = log.filter (fun t => now - RATE_LIMIT_WINDOW_MS ≤ t) := by
  have hp : (pruneLog now log).length ≤ log.length :=
    (List.dropWhile_sublist _).length_le
  by_cases h : RATE_LIMIT_MAX ≤ (pruneLog now log).length
  · have he : isRateLimited now log = (true, pruneLog now log) := by
      simp only [isRateLimited, if_pos h]
    rw [he]
    exact ⟨le_trans hp hlen, fun _ => rfl, fun hf => Bool.noConfusion hf,
      pruneLog_keeps now log hsorted⟩
  · have he : isRateLimited now log = (false, pruneLog now log ++ [now]) := by
      simp only [isRateLimited, if_neg h]
    rw [he]
    refine ⟨?_, fun ht => Bool.noConfusion ht, fun _ => rfl,
      pruneLog_keeps now log hsorted⟩
    rw [List.length_append]
    simp only [List.length_cons, List.length_nil]
    omega

/-- C10 witness: a two-entry sorted log at time 70000 (the 5000 entry falls
out of the window, the call is admitted and recorded). -/
theorem isRateLimited_log_invariants_witness :
    (isRateLimited 70000 [5000, 65000]).2.length ≤ RATE_LIMIT_MAX ∧
    ((isRateLimited 70000 [5000, 65000]).1 = true →
        (isRateLimited 70000 [5000, 65000]).2 = pruneLog 70000 [5000, 65000]) ∧
    ((isRateLimited 70000 [5000, 65000]).1 = false →
        (isRateLimited 70000 [5000, 65000]).2 = pruneLog 70000 [5000, 65000] ++ [70000]) ∧
    pruneLog 70000 [5000, 65000] =
      [5000, 65000].filter (fun t => 70000 - RATE_LIMIT_WINDOW_MS ≤ t) :=
  isRateLimited_log_invariants 70000 [5000, 65000] (by decide) (by decide)

theorem jsMathCeilDiv_zero (p : Int) : jsMathCeilDiv 0 p = 0 := by
  unfold jsMathCeilDiv
  split
  · rfl
  · rename_i h
    exact Nat.div_eq_of_lt (by omega)

/-- `jsMathCeilDiv` is the ceiling of `total / perPage`, characterized
order-theoretically, and vanishes exactly at zero. -/
theorem jsMathCeilDiv_spec (t : Nat) (p : Int) (hp : 0 < p) :
    t ≤ jsMathCeilDiv t p * p.toNat ∧
    jsMathCeilDiv t p * p.toNat < t + p.toNat ∧
    (jsMathCeilDiv t p = 0 ↔ t = 0) := by
  have hq : 0 < p.toNat := by omega
  rw [jsMathCeilDiv, if_neg (by omega)]
  have hle : t ≤ (t + p.toNat - 1) / p.toNat * p.toNat := by
    rw [Nat.mul_comm]
    have hmod : (t + p.toNat - 1) % p.toNat < p.toNat := Nat.mod_lt _ hq
    have hdm := Nat.div_add_mod (t + p.toNat - 1) p.toNat
    generalize p.toNat * ((t + p.toNat - 1) / p.toNat) = m at hdm ⊢
    omega
  refine ⟨hle, ?_, ?_, ?_⟩
  · calc (t + p.toNat - 1) / p.toNat * p.toNat
        ≤ t + p.toNat - 1 := Nat.div_mul_le_self _ _
      _ < t + p.toNat := by omega
  · intro h0
    rw [h0, Nat.zero_mul] at hle
    omega
  · intro ht
    subst ht
    exact Nat.div_eq_of_lt (by omega)

/-- Whatever the network answers, `getPostsPaginated`'s `totalPages` header
is always the ceiling division of its `total` header. -/
theorem getPostsPaginated_headers (u : Option String) (pr cr : Option HttpResp)
    (page pp : Int) :
    (getPostsPaginated u pr cr page pp).1.headers.totalPages
      = jsMathCeilDiv (getPostsPaginated u pr cr page pp).1.headers.total pp := by
  unfold getPostsPaginated
  split
  · exact (jsMathCeilDiv_zero pp).symm
  · split
    · split
      · rfl
      · exact (jsMathCeilDiv_zero pp).symm
    · exact (jsMathCeilDiv_zero pp).symm

/-- Same for every `Except.ok` outcome of `getCPTNodesPaginated`. -/
theorem getCPTNodesPaginated_headers (u : Option String) (name : String)
    (collResp cntResp : Option HttpResp) (page pp : Int) (res : CPTResult) (n : Nat)
    (h : getCPTNodesPaginated u name collResp cntResp page pp = .ok (res, n)) :
    res.headers.totalPages = jsMathCeilDiv res.headers.total pp := by
  unfold getCPTNodesPaginated at h
  split at h
  · exact Except.noConfusion h
  · split at h
    · simp only [Except.ok.injEq, Prod.mk.injEq] at h
      rw [← h.1]
      exact (jsMathCeilDiv_zero pp).symm
    · split at h
      · split at h
        · simp only [Except.ok.injEq, Prod.mk.injEq] at h
          rw [← h.1]
        · simp only [Except.ok.injEq, Prod.mk.injEq] at h
          rw [← h.1]
          exact (jsMathCeilDiv_zero pp).symm
      · simp only [Except.ok.injEq, Prod.mk.injEq] at h
        rw [← h.1]
        exact (jsMathCeilDiv_zero pp).symm

/-- C9: for every outcome of a paginated fetch with `pageSize > 0`, the
returned headers satisfy `totalPages = ceil(total / pageSize)` (stated by
its order characterization) and `totalPages = 0 ↔ total = 0`; likewise for
every successful `getCPTNodesPaginated` result. -/
theorem paginated_totals_invariant (u : Option String)
    (pr cr collResp cntResp : Option HttpResp) (name : String) (page pp : Int)
    (hp : 0 < pp) :
    ((getPostsPaginated u pr cr page pp).1.headers.total ≤
        (getPostsPaginated u pr cr page pp).1.headers.totalPages * pp.toNat ∧
      (getPostsPaginated u pr cr page pp).1.headers.totalPages * pp.toNat <
        (getPostsPaginated u pr cr page pp).1.headers.total + pp.toNat ∧
      ((getPostsPaginated u pr cr page pp).1.headers.totalPages = 0 ↔
        (getPostsPaginated u pr cr page pp).1.headers.total = 0)) ∧
    (∀ res n, getCPTNodesPaginated u name collResp cntResp page pp = .ok (res, n) →
      (res.headers.total ≤ res.headers.totalPages * pp.toNat ∧
       res.headers.totalPages * pp.toNat < res.headers.total + pp.toNat ∧
       (res.headers.totalPages = 0 ↔ res.headers.total = 0))) := by
  constructor
  · rw [getPostsPaginated_headers]
    exact jsMathCeilDiv_spec _ pp hp
  · intro res n h
    rw [getCPTNodesPaginated_headers u name collResp cntResp page pp res n h]
    exact jsMathCeilDiv_spec _ pp hp

/-- C9 witness at page size 9 with no network. -/
theorem paginated_totals_invariant_witness :
    ((getPostsPaginated (some "w") none none 1 9).1.headers.total ≤
        (getPostsPaginated (some "w") none none 1 9).1.headers.totalPages * (9 : Int).toNat ∧
      (getPostsPaginated (some "w") none none 1 9).1.headers.totalPages * (9 : Int).toNat <
        (getPostsPaginated (some "w") none none 1 9).1.headers.total + (9 : Int).toNat ∧
      ((getPostsPaginated (some "w") none none 1 9).1.headers.totalPages = 0 ↔
        (getPostsPaginated (some "w") none none 1 9).1.headers.total = 0)) ∧
    (∀ res n, getCPTNodesPaginated (some "w") "guide" none none 1 9 = .ok (res, n) →
      (res.headers.total ≤ res.headers.totalPages * (9 : Int).toNat ∧
       res.headers.totalPages * (9 : Int).toNat < res.headers.total + (9 : Int).toNat ∧
       (res.headers.totalPages = 0 ↔ res.headers.total = 0))) :=
  paginated_totals_invariant (some "w") none none none none "guide" 1 9 (by norm_num)

/-- C2 counterexample: a request carrying a correct legacy
`x-webhook-secret` (so one of the two authentication methods validates)
together with a wrong `x-webhook-signature` header is answered 401: the
presence of the signature header makes the handler ignore the legacy header
entirely, contradicting the claim that 401 implies neither method
validates. -/
theorem webhookPOST_legacy_bypassed :
    verifySecret (some "s3cret") "s3cret" = true ∧
    (webhookPOST (fun _ _ => "0000") (some "s3cret") false
      { sigHeader := some "ffff", secretHeader := some "s3cret",
        rawBody := "{}",
        parsedBody := some (.obj [("contentType", .str "post")]) }).status = 401 := by
  constructor
  · decide
  · decide

/-- C2 (amended): the handler returns 401 iff it is not rate-limited, a
non-empty secret is configured, and the single authentication method it
consults fails — HMAC verification when a non-empty `x-webhook-signature`
header is present (the legacy header is then ignored), legacy exact match
otherwise. -/
theorem webhookPOST_401_iff (hmac : String → String → String)
    (envSecret : Option String) (rateLimited : Bool) (req : WebhookRequest) :
    (webhookPOST hmac envSecret rateLimited req).status = 401 ↔
      (rateLimited = false ∧ ∃ s, envSecret = some s ∧ s ≠ "" ∧
        (if strTruthy req.sigHeader then
            verifySignature hmac req.rawBody req.sigHeader s = false
          else
            verifySecret req.secretHeader s = false)) := by
  unfold webhookPOST
  cases rateLimited with
  | true => simp
  | false =>
      simp only [Bool.false_eq_true, if_false]
      cases envSecret with
      | none => simp
      | some s =>
          by_cases hs : s = ""
          · subst hs
            simp
          · simp only [if_neg hs, Option.some.injEq]
            by_cases hvalid :
                (if strTruthy req.sigHeader then
                    verifySignature hmac req.rawBody req.sigHeader s
                  else verifySecret req.secretHeader s) = true
            · rw [if_neg (by simp [hvalid])]
              constructor
              · intro h
                exfalso
                revert h
                split
                · simp
                · simp
                · split
                  · split_ifs <;> simp
                  · simp
              · rintro ⟨-, s2, hs2, -, hfail⟩
                subst hs2
                by_cases hsig : strTruthy req.sigHeader = true
                · rw [if_pos hsig] at hfail hvalid
                  simp [hfail] at hvalid
                · rw [if_neg hsig] at hfail hvalid
                  simp [hfail] at hvalid
            · rw [if_pos hvalid]
              constructor
              · intro _
                refine ⟨by trivial, s, rfl, hs, ?_⟩
                by_cases hsig : strTruthy req.sigHeader = true
                · rw [if_pos hsig]
                  rw [if_pos hsig] at hvalid
                  simpa using hvalid
                · rw [if_neg hsig]
                  rw [if_neg hsig] at hvalid
                  simpa using hvalid
              · intro _
                rfl

/-- No pruning happens when every logged timestamp is still inside the
window. -/
theorem pruneLog_eq_self (now : Nat) (log : List Nat)
    (h : ∀ s ∈ log, now - RATE_LIMIT_WINDOW_MS ≤ s) : pruneLog now log = log := by
  cases log with
  | nil => rfl
  | cons a as =>
      rw [pruneLog, List.dropWhile_cons_of_neg]
      simp only [decide_eq_true_eq]
      have := h a (by simp)
      omega

/-- If all timestamps (logged and incoming) lie inside one window and there
is room, every request is admitted and appended in order. -/
theorem runLimiter_all_admitted (lo : Nat) : ∀ (ts log : List Nat),
    (∀ t ∈ ts, lo ≤ t ∧ t ≤ lo + RATE_LIMIT_WINDOW_MS) →
    (∀ t ∈ log, lo ≤ t ∧ t ≤ lo + RATE_LIMIT_WINDOW_MS) →
    log.length + ts.length ≤ RATE_LIMIT_MAX →
    runLimiter ts log = (List.replicate ts.length false, log ++ ts) := by
  intro ts
  induction ts with
  | nil =>
      intro log _ _ _
      simp [runLimiter]
  | cons t ts ih =>
      intro log hts hlog hlen
      have hprune : pruneLog t log = log := by
        refine pruneLog_eq_self t log (fun x hx => ?_)
        have h1 := (hts t (by simp)).2
        have h2 := (hlog x hx).1
        omega
      have hnotfull : ¬ RATE_LIMIT_MAX ≤ log.length := by
        simp only [List.length_cons] at hlen
        omega
      have hstep : isRateLimited t log = (false, log ++ [t]) := by
        simp only [isRateLimited, hprune, if_neg hnotfull]
      have ihlog : ∀ x ∈ log ++ [t], lo ≤ x ∧ x ≤ lo + RATE_LIMIT_WINDOW_MS := by
        intro x hx
        rcases List.mem_append.mp hx with h | h
        · exact hlog x h
        · rw [List.mem_singleton.mp h]
          exact hts t (by simp)
      have ih2 := ih (log ++ [t]) (fun x hx => hts x (by simp [hx])) ihlog
        (by simp only [List.length_append, List.length_cons, List.length_nil] at hlen ⊢; omega)
      rw [show runLimiter (t :: ts) log =
          ((isRateLimited t log).1 :: (runLimiter ts (isRateLimited t log).2).1,
           (runLimiter ts (isRateLimited t log).2).2) from rfl, hstep]
      simp only [ih2, List.length_cons, List.replicate_succ, Prod.mk.injEq]
      refine ⟨trivial, ?_⟩
      rw [List.append_assoc, List.singleton_append]

theorem runLimiter_append : ∀ (xs ys log : List Nat),
    runLimiter (xs ++ ys) log =
      ((runLimiter xs log).1 ++ (runLimiter ys (runLimiter xs log).2).1,
       (runLimiter ys (runLimiter xs log).2).2) := by
  intro xs
  induction xs with
  | nil =>
      intro ys log
      simp [runLimiter]
  | cons x xs ih =>
      intro ys log
      simp [runLimiter, ih]

/-- C5: among 31 requests falling in one 60-second window starting from an
empty (process-start) log, the first 30 are admitted and the 31st is
rejected; a rate-limited request is answered 429 with `Retry-After: 60`
independently of its headers and of the configured secret (so before the
secret is consulted); and a non-limited request with valid HMAC
authentication and a well-formed body is processed normally (200). -/
theorem rateLimit_scenario (ts : List Nat) (lo : Nat)
    (hlen : ts.length = 31)
    (hwin : ∀ t ∈ ts, lo ≤ t ∧ t ≤ lo + RATE_LIMIT_WINDOW_MS) :
    (runLimiter ts []).1 = List.replicate 30 false ++ [true] ∧
    (∀ hmac envSecret req, webhookPOST hmac envSecret true req =
        { status := 429, retryAfter := some "60", tags := [] }) ∧
    (∀ hmac secret req body ct,
        secret ≠ "" →
        strTruthy req.sigHeader = true →
        verifySignature hmac req.rawBody req.sigHeader secret = true →
        req.parsedBody = some body →
        body.get "contentType" = some (.str ct) →
        ct ≠ "" →
        contentTypePattern ct = true →
        (webhookPOST hmac (some secret) false req).status = 200) := by
  refine ⟨?_, fun hmac envSecret req => rfl, ?_⟩
  · obtain ⟨x, hx⟩ : ∃ x, ts.drop 30 = [x] := by
      rw [← List.length_eq_one]
      rw [List.length_drop, hlen]
    have hsplit : ts.take 30 ++ [x] = ts := by rw [← hx, List.take_append_drop]
    have htake : (ts.take 30).length = 30 := by
      rw [List.length_take, hlen]
      omega
    have hfirst := runLimiter_all_admitted lo (ts.take 30) []
      (fun t ht => hwin t (List.take_subset 30 ts ht)) (by simp)
      (by rw [htake]; decide)
    rw [htake] at hfirst
    have hxmem : x ∈ ts := by
      have : x ∈ ts.drop 30 := by rw [hx]; simp
      exact List.drop_subset 30 ts this
    have hprune : pruneLog x (ts.take 30) = ts.take 30 := by
      refine pruneLog_eq_self x _ (fun s hs => ?_)
      have h1 := (hwin x hxmem).2
      have h2 := (hwin s (List.take_subset 30 ts hs)).1
      omega
    have hfull : RATE_LIMIT_MAX ≤ (pruneLog x (ts.take 30)).length := by
      rw [hprune, htake]
      decide
    have hstep : isRateLimited x (ts.take 30) = (true, pruneLog x (ts.take 30)) := by
      simp only [isRateLimited, if_pos hfull]
    rw [← hsplit, runLimiter_append, hfirst]
    simp only [List.nil_append]
    rw [show runLimiter [x] (ts.take 30) =
        ((isRateLimited x (ts.take 30)).1 ::
            (runLimiter [] (isRateLimited x (ts.take 30)).2).1,
         (runLimiter [] (isRateLimited x (ts.take 30)).2).2) from rfl, hstep]
    simp [runLimiter]
  · intro hmac secret req body ct hsecret hsig hverify hbody hct hctne hpat
    unfold webhookPOST
    simp only [Bool.false_eq_true, if_false]
    simp only [if_neg hsecret]
    rw [if_neg (by simp [hsig, hverify])]
    rw [hbody]
    cases body with
    | null =>
        rw [show JSON.null.get "contentType" = none from rfl] at hct
        cases hct
    | bool b =>
        rw [show (JSON.bool b).get "contentType" = none from rfl] at hct
        cases hct
    | num n =>
        rw [show (JSON.num n).get "contentType" = none from rfl] at hct
        cases hct
    | str s =>
        rw [show (JSON.str s).get "contentType" = none from rfl] at hct
        cases hct
    | arr l =>
        rw [show (JSON.arr l).get "contentType" = none from rfl] at hct
        cases hct
    | obj fs =>
        simp only [optGet]
        rw [hct]
        simp only []
        rw [if_neg hctne, if_neg (by simp [hpat])]

/-- C5 witness: 31 requests all at time 0. -/
theorem rateLimit_scenario_witness :
    (runLimiter (List.replicate 31 0) []).1 = List.replicate 30 false ++ [true] ∧
    (∀ hmac envSecret req, webhookPOST hmac envSecret true req =
        { status := 429, retryAfter := some "60", tags := [] }) ∧
    (∀ hmac secret req body ct,
        secret ≠ "" →
        strTruthy req.sigHeader = true →
        verifySignature hmac req.rawBody req.sigHeader secret = true →
        req.parsedBody = some body →
        body.get "contentType" = some (.str ct) →
        ct ≠ "" →
        contentTypePattern ct = true →
        (webhookPOST hmac (some secret) false req).status = 200) :=
  rateLimit_scenario (List.replicate 31 0) 0 (by decide)
    (fun t ht => by rcases List.eq_of_mem_replicate ht with rfl; omega)

theorem strictGet_of_ne_null (j : JSON) (k : String) (hj : j ≠ JSON.null) :
    strictGet (some j) k = .ok (j.get k) := by
  cases j with
  | null => exact absurd rfl hj
  | bool b => rfl
  | num n => rfl
  | str s => rfl
  | arr l => rfl
  | obj fs => rfl

theorem mapM_message_ok (l : List JSON) (h : ∀ e ∈ l, e ≠ JSON.null) :
    l.mapM (fun e => strictGet (some e) "message") =
      .ok (l.map (fun e => e.get "message")) := by
  induction l with
  | nil => rfl
  | cons e es ih =>
      rw [List.mapM_cons, strictGet_of_ne_null e _ (h e (by simp)),
        ih (fun x hx => h x (by simp [hx]))]
      rfl

theorem graphqlFetch_configured (u : String) (hu : u ≠ "") (r : Option HttpResp) :
    graphqlFetch (some u) r =
      (match r with
      | none => .error (.other "fetch rejected")
      | some r =>
        if ¬ responseOk r.status then
          .error (.api ("WPGraphQL request failed: " ++ r.statusText) r.status
            (u ++ "/graphql"))
        else
          match r.body with
          | none => .error (.other "response body is not valid JSON")
          | some json =>
            match strictGet (some json) "errors" with
            | .error m => .error (.other m)
            | .ok errs =>
              if truthyU (optGet errs "length") then
                match errs with
                | some (.arr l) =>
                    match l.mapM (fun e => strictGet (some e) "message") with
                    | .ok msgs =>
                        .error (.api
                          ("WPGraphQL errors: " ++
                            String.intercalate ", " (msgs.map joinDisplayU))
                          200 (u ++ "/graphql"))
                    | .error m => .error (.other m)
                | _ => .error (.other "TypeError: map is not a function")
              else
                .ok (json.get "data")) := by
  rw [graphqlFetch, if_neg (by simp [strTruthy, hu])]
  rfl

/-- C8: given a received envelope (a non-null JSON body whose `errors`
field, if present, is an array of non-null entries per the wire contract),
`graphqlFetch` fails exactly when the HTTP status is non-2xx or the
envelope's errors array is non-empty; the transport error carries the HTTP
status and the endpoint URL, the backend error carries status 200, the
endpoint, and the concatenated error messages; otherwise it returns the
envelope's `data`. -/
theorem graphqlFetch_spec (u : String) (r : HttpResp) (j : JSON)
    (hu : u ≠ "") (hbody : r.body = some j) (hj : j ≠ JSON.null)
    (herrs : match j.get "errors" with
      | none => True
      | some .null => True
      | some (.arr l) => ∀ e ∈ l, e ≠ JSON.null
      | some _ => False) :
    ((graphqlFetch (some u) (some r)).isOk = true ↔
      (responseOk r.status = true ∧
        ∀ l, j.get "errors" = some (.arr l) → l = [])) ∧
    (responseOk r.status = false →
      graphqlFetch (some u) (some r) =
        .error (.api ("WPGraphQL request failed: " ++ r.statusText) r.status
          (u ++ "/graphql"))) ∧
    (∀ l, responseOk r.status = true → j.get "errors" = some (.arr l) → l ≠ [] →
      graphqlFetch (some u) (some r) =
        .error (.api
          ("WPGraphQL errors: " ++
            String.intercalate ", "
              (l.map (fun e => joinDisplayU (e.get "message"))))
          200 (u ++ "/graphql"))) ∧
    ((responseOk r.status = true ∧ (∀ l, j.get "errors" = some (.arr l) → l = [])) →
      graphqlFetch (some u) (some r) = .ok (j.get "data")) := by
  rw [graphqlFetch_configured u hu]
  simp only []
  by_cases hok : responseOk r.status = true
  · rw [if_neg (by simp [hok]), hbody]
    simp only []
    rw [strictGet_of_ne_null j "errors" hj]
    simp only []
    rcases herr : j.get "errors" with _ | v
    · rw [if_neg (by simp [truthyU, optGet])]
      refine ⟨by simp [hok, Except.isOk, Except.toBool], by simp [hok], ?_, fun _ => rfl⟩
      intro l _ hl
      cases hl
    · cases v with
      | null =>
          rw [if_neg (by simp [truthyU, optGet])]
          refine ⟨by simp [hok, Except.isOk, Except.toBool], by simp [hok], ?_, fun _ => rfl⟩
          intro l _ hl
          cases hl
      | arr l =>
          rw [herr] at herrs
          rcases l with _ | ⟨e, es⟩
          · rw [if_neg (by simp [truthyU, optGet, JSON.get, JSON.truthy])]
            refine ⟨by simp [hok, Except.isOk, Except.toBool], by simp [hok], ?_, fun _ => rfl⟩
            intro l2 _ hl2 hne
            injection hl2 with hl2
            injection hl2 with hl2
            exact absurd hl2.symm hne
          · rw [if_pos (by simp [truthyU, optGet, JSON.get, JSON.truthy]; omega)]
            simp only []
            rw [mapM_message_ok _ herrs]
            simp only [List.map_map]
            refine ⟨?_, by simp [hok], ?_, ?_⟩
            · constructor
              · intro hfalse
                simp [Except.isOk, Except.toBool] at hfalse
              · rintro ⟨-, hempty⟩
                exact absurd (hempty _ rfl) (by simp)
            · intro l2 _ hl2 _
              injection hl2 with hl2
              injection hl2 with hl2
              subst hl2
              rfl
            · rintro ⟨-, hempty⟩
              exact absurd (hempty _ rfl) (by simp)
      | bool b => rw [herr] at herrs; cases herrs
      | num n => rw [herr] at herrs; cases herrs
      | str s2 => rw [herr] at herrs; cases herrs
      | obj fs => rw [herr] at herrs; cases herrs
  · have hok2 : responseOk r.status = false := by
      cases hr : responseOk r.status
      · rfl
      · exact absurd hr hok
    rw [if_pos (by simp [hok2])]
    refine ⟨?_, fun _ => rfl, ?_, ?_⟩
    · simp [hok2, Except.isOk, Except.toBool]
    · intro l hl
      rw [hl] at hok
      exact absurd rfl hok
    · rintro ⟨hl, -⟩
      rw [hl] at hok
      exact absurd rfl hok

/-- C8 witness: a 200 envelope with data and an empty errors situation, all
hypotheses discharged at concrete values. -/
theorem graphqlFetch_spec_witness :
    ((graphqlFetch (some "http://wp")
        (some ⟨200, "OK", some (.obj [("data", .num 7)])⟩)).isOk = true ↔
      (responseOk 200 = true ∧
        ∀ l, (JSON.obj [("data", .num 7)]).get "errors" = some (.arr l) → l = [])) ∧
    (responseOk 200 = false →
      graphqlFetch (some "http://wp") (some ⟨200, "OK", some (.obj [("data", .num 7)])⟩) =
        .error (.api ("WPGraphQL request failed: " ++ "OK") 200
          ("http://wp" ++ "/graphql"))) ∧
    (∀ l, responseOk 200 = true →
      (JSON.obj [("data", .num 7)]).get "errors" = some (.arr l) → l ≠ [] →
      graphqlFetch (some "http://wp") (some ⟨200, "OK", some (.obj [("data", .num 7)])⟩) =
        .error (.api
          ("WPGraphQL errors: " ++
            String.intercalate ", "
              (l.map (fun e => joinDisplayU (e.get "message"))))
          200 ("http://wp" ++ "/graphql"))) ∧
    ((responseOk 200 = true ∧
        (∀ l, (JSON.obj [("data", .num 7)]).get "errors" = some (.arr l) → l = [])) →
      graphqlFetch (some "http://wp") (some ⟨200, "OK", some (.obj [("data", .num 7)])⟩) =
        .ok ((JSON.obj [("data", .num 7)]).get "data")) :=
  graphqlFetch_spec "http://wp" ⟨200, "OK", some (.obj [("data", .num 7)])⟩
    (.obj [("data", .num 7)]) (by decide) rfl (by decide) (by trivial)

/-! Concrete environments for the extras-merger scenarios. -/

/-- The C1 scenario document read literally as claimed: the custom fields
sit at the top level of the REST response and there is no `acf` key. -/
def c1ClaimDoc : JSON :=
  .obj [("custom_field", .str "x"), ("empty_field", .str ""),
        ("flags", .arr [.num 1, .num 2, .num 3])]

def c1Term1 : JSON := .obj [("id", .num 1), ("name", .str "One"), ("slug", .str "one")]

def c1Term2 : JSON := .obj [("id", .num 2), ("name", .str "Two"), ("slug", .str "two")]

/-- Terms oracle: `flags` with ids 1,2,3 resolves to two terms. -/
def c1TermsResp : String → List Int → Option JSON := fun k ids =>
  if k = "flags" ∧ ids = [1, 2, 3] then some (.arr [c1Term1, c1Term2]) else none

def c1LabelMap : String → Option String := fun k =>
  if k = "flags" then some "Flags" else none

def c1ClaimEnv : RestEnv := ⟨true, some c1ClaimDoc, c1TermsResp, c1LabelMap⟩

/-- The same scenario with the custom fields where the code actually reads
them: nested under the `acf` response key. -/
def c1AcfDoc : JSON :=
  .obj [("acf", .obj [("custom_field", .str "x"), ("empty_field", .str "")]),
        ("flags", .arr [.num 1, .num 2, .num 3])]

def c1AcfEnv : RestEnv := ⟨true, some c1AcfDoc, c1TermsResp, c1LabelMap⟩

/-- C1 counterexample: on the document shaped exactly as the claim states
(custom fields as top-level response keys, no `acf` key), the code returns
no `customFields` at all — in particular not `{custom_field: "x"}` — because
`fetchContentExtras` builds `customFields` solely from the response's `acf`
object, not from the non-reserved response keys. -/
theorem fetchContentExtras_claim_cex :
    (fetchContentExtras c1ClaimEnv).acf = none ∧
    (fetchContentExtras c1ClaimEnv).acf ≠ some [("custom_field", JSON.str "x")] := by
  constructor
  · decide
  · decide

/-- C1 (amended): `customFields` is extracted from the response's `acf`
object only; whenever the document's `acf` key holds an object with entries
`es`, the result's `acf` is `filterACF` of those entries, and an entry
survives iff its value is not `false`/`null`/`""`/`[]`.  On the scenario
document with `{custom_field: "x", empty_field: ""}` under `acf` and
`flags: [1,2,3]` top-level resolving to two terms, the result has
`customFields = {custom_field: "x"}` (the empty field dropped) and exactly
one custom taxonomy `flags` with those two terms. -/
theorem fetchContentExtras_acf_spec (env : RestEnv) (data : JSON)
    (es : List (String × JSON)) (hconf : env.configured = true)
    (hdoc : env.doc = some data) (hacf : data.get "acf" = some (.obj es)) :
    fetchContentExtras c1AcfEnv =
      ⟨some [("custom_field", .str "x")],
       some [⟨"flags", "Flags",
         [⟨.num 1, .str "One", .str "one"⟩, ⟨.num 2, .str "Two", .str "two"⟩]⟩],
       [("flags", [1, 2, 3])]⟩ ∧
    (fetchContentExtras env).acf = filterACF (some (.obj es)) ∧
    (∀ k v, ((k, v) ∈ ((fetchContentExtras env).acf).getD [] ↔
        (k, v) ∈ es ∧ jsDropped v = false)) := by
  have hacfeq : (fetchContentExtras env).acf = filterACF (some (.obj es)) := by
    rw [fetchContentExtras, if_neg (by simp [hconf]), hdoc]
    cases data with
    | null => rw [show JSON.null.get "acf" = none from rfl] at hacf; cases hacf
    | bool b => rw [show (JSON.bool b).get "acf" = none from rfl] at hacf; cases hacf
    | num n => rw [show (JSON.num n).get "acf" = none from rfl] at hacf; cases hacf
    | str s => rw [show (JSON.str s).get "acf" = none from rfl] at hacf; cases hacf
    | arr l => rw [show (JSON.arr l).get "acf" = none from rfl] at hacf; cases hacf
    | obj fs =>
        simp only []
        rw [hacf]
  refine ⟨by decide, hacfeq, ?_⟩
  intro k v
  rw [hacfeq]
  have hfil : (filterACF (some (JSON.obj es))).getD [] =
      es.filter (fun p => ¬ jsDropped p.2) := by
    rw [filterACF, if_neg (by simp [JSON.truthy])]
    simp only [JSON.entries]
    by_cases he : (es.filter (fun p => ¬ jsDropped p.2)).isEmpty = true
    · rw [if_pos he]
      rw [List.isEmpty_iff] at he
      rw [he]
      rfl
    · rw [if_neg he]
      rfl
  rw [hfil]
  rw [List.mem_filter]
  simp

/-- C1 witness: the amended theorem applied at the scenario environment. -/
theorem fetchContentExtras_acf_spec_witness :
    fetchContentExtras c1AcfEnv =
      ⟨some [("custom_field", .str "x")],
       some [⟨"flags", "Flags",
         [⟨.num 1, .str "One", .str "one"⟩, ⟨.num 2, .str "Two", .str "two"⟩]⟩],
       [("flags", [1, 2, 3])]⟩ ∧
    (fetchContentExtras c1AcfEnv).acf =
      filterACF (some (.obj [("custom_field", .str "x"), ("empty_field", .str "")])) ∧
    (∀ k v, ((k, v) ∈ ((fetchContentExtras c1AcfEnv).acf).getD [] ↔
        (k, v) ∈ [("custom_field", JSON.str "x"), ("empty_field", JSON.str "")] ∧
          jsDropped v = false)) :=
  fetchContentExtras_acf_spec c1AcfEnv c1AcfDoc
    [("custom_field", .str "x"), ("empty_field", .str "")] rfl rfl (by decide)

/-- The C3 counterexample document: a single key starting with an
upper-case letter, holding a non-empty numeric array. -/
def c3Doc : JSON := .obj [("Flags", .arr [.num 1])]

def c3Env : RestEnv := ⟨true, some c3Doc, fun _ _ => none, fun _ => none⟩

/-- C3 counterexample: the key `Flags` does not match the claimed
case-sensitive pattern `^[a-z][a-z0-9_-]{0,49}$` (which is exactly
`cptNamePattern`), yet `fetchContentExtras` issues a follow-up taxonomy
request for it — the guard regex in the code carries the `/i` flag. -/
theorem taxonomyKey_case_cex :
    (fetchContentExtras c3Env).requests = [("Flags", [1])] ∧
    cptNamePattern "Flags" = false := by
  constructor
  · decide
  · decide

/-- C3 (amended): a follow-up taxonomy request is issued for `(k, ids)` iff
the document has an entry `(k, v)` where `k` is not reserved, `v` is a
non-empty array of numbers with term ids `ids`, and `k` matches
`^[a-z][a-z0-9_-]{0,49}$` case-insensitively (`taxKeyPattern`). -/
theorem taxonomy_requests_iff (env : RestEnv) (data : JSON)
    (hconf : env.configured = true) (hdoc : env.doc = some data)
    (hnn : data ≠ JSON.null) :
    ∀ k ids, ((k, ids) ∈ (fetchContentExtras env).requests ↔
      ∃ v, (k, v) ∈ data.entries ∧
        WP_STANDARD_KEYS.contains k = false ∧
        (∃ l, v = .arr l ∧ l ≠ [] ∧ (∀ e ∈ l, ∃ n : Int, e = .num n) ∧
          ids = termIdsOf v) ∧
        taxKeyPattern k = true) := by
  intro k ids
  rw [fetchContentExtras, if_neg (by simp [hconf]), hdoc]
  cases data
  case null => exact absurd rfl hnn
  all_goals
    simp only [List.mem_map, List.mem_filter]
    constructor
    · rintro ⟨⟨k2, v⟩, ⟨hmem, hcand⟩, heq⟩
      simp only [Prod.mk.injEq] at heq
      obtain ⟨rfl, rfl⟩ := heq
      simp only [isTaxCandidate, Bool.and_eq_true, Bool.not_eq_true'] at hcand
      obtain ⟨⟨hres, hshape⟩, hpat⟩ := hcand
      cases v with
      | arr l =>
          simp only [Bool.and_eq_true, Bool.not_eq_true', List.all_eq_true] at hshape
          refine ⟨.arr l, hmem, hres, ⟨l, rfl, ?_, ?_, rfl⟩, hpat⟩
          · intro h
            rw [h] at hshape
            exact Bool.noConfusion hshape.1
          · intro e he
            have h2 := hshape.2 e he
            cases e with
            | num n => exact ⟨n, rfl⟩
            | null => cases h2
            | bool b => cases h2
            | str s => cases h2
            | arr l2 => cases h2
            | obj fs2 => cases h2
      | null => cases hshape
      | bool b => cases hshape
      | num n => cases hshape
      | str s => cases hshape
      | obj fs => cases hshape
    · rintro ⟨v, hmem, hres, ⟨l, rfl, hl, hnum, rfl⟩, hpat⟩
      refine ⟨(k, .arr l), ⟨hmem, ?_⟩, rfl⟩
      simp only [isTaxCandidate, Bool.and_eq_true, Bool.not_eq_true']
      refine ⟨⟨hres, ?_⟩, hpat⟩
      simp only [Bool.and_eq_true, Bool.not_eq_true', List.all_eq_true]
      refine ⟨by cases l with | nil => exact absurd rfl hl | cons a as => rfl, ?_⟩
      intro e he
      obtain ⟨n, rfl⟩ := hnum e he
      rfl

/-- C3 witness: the amended characterization applied to the `Flags`
document at key `Flags` with ids `[1]`. -/
theorem taxonomy_requests_iff_witness :
    (("Flags", [(1 : Int)]) ∈ (fetchContentExtras c3Env).requests ↔
      ∃ v, ("Flags", v) ∈ c3Doc.entries ∧
        WP_STANDARD_KEYS.contains "Flags" = false ∧
        (∃ l, v = .arr l ∧ l ≠ [] ∧ (∀ e ∈ l, ∃ n : Int, e = .num n) ∧
          [(1 : Int)] = termIdsOf v) ∧
        taxKeyPattern "Flags" = true) :=
  taxonomy_requests_iff c3Env c3Doc rfl rfl (by decide) "Flags" [1]

/-- C6 counterexample: a raw node whose `status` field is the number 5
makes the normalizer throw (`(5)?.toLowerCase()` is a TypeError) instead of
degrading to a default, so `transformPost` is not total on raw objects. -/
theorem transformPost_not_total :
    transformPost (.obj [("status", .num 5)]) =
      .error "TypeError: toLowerCase is not a function" := rfl

theorem jsToLowerStr_ne_empty (s : String) (hs : s ≠ "") : jsToLowerStr s ≠ "" := by
  intro h
  apply hs
  have hd : s.data.map Char.toLower = [] := congrArg String.data h
  have hnil : s.data = [] := List.map_eq_nil_iff.mp hd
  cases s
  exact congrArg String.mk hnil

/-- C6 (amended): on the empty raw object `transformPost` returns the
entity with every documented default (id 0, empty strings, status
"publish", comment and ping status "closed", empty categories and tags) and
`transformContentNode` likewise; when the backend's status is present as a
non-empty string the normalized status is its lower-casing.  The normalizer
is however not total on arbitrary raw objects: a non-string, non-null
status/comment/ping value raises instead of defaulting (see the
counterexample). -/
theorem transformPost_defaults (es : List (String × JSON)) (s : String)
    (hstatus : jlookup es "status" = some (.str s)) (hs : s ≠ "") :
    transformPost (.obj []) = .ok
      { id := .num 0, date := .str "", date_gmt := .str "", modified := .str "",
        modified_gmt := .str "", slug := .str "", status := "publish",
        link := .str "", guid := .str "", title := .str "", content := .str "",
        excerpt := none, author := .num 0, featured_media := .num 0,
        comment_status := "closed", ping_status := "closed",
        sticky := .bool false, categories := [], tags := [],
        embeddedAuthor := none, embeddedFeaturedMedia := none, wpTerm := [],
        seo := none } ∧
    (∀ ctName, transformContentNode (.obj []) ctName = .ok
      { id := .num 0, slug := .str "", date := .str "", modified := .str "",
        link := .str "", status := "publish", title := none, content := none,
        excerpt := none, author := none, featured_media := none,
        embeddedAuthor := none, embeddedFeaturedMedia := none,
        contentType := ctName, seo := none }) ∧
    (∀ p, transformPost (.obj es) = .ok p → p.status = jsToLowerStr s) := by
  refine ⟨rfl, fun ctName => rfl, ?_⟩
  intro p hp
  rw [transformPost] at hp
  simp only [bind, Except.bind, strictGet, JSON.get] at hp
  rw [hstatus,
    show jsToLowerOpt (some (JSON.str s)) = Except.ok (some (jsToLowerStr s)) from rfl] at hp
  simp only [] at hp
  cases hcl : jsToLowerOpt (jlookup es "commentStatus") with
  | error m => rw [hcl] at hp; cases hp
  | ok cl =>
    rw [hcl] at hp
    simp only [] at hp
    cases hpl : jsToLowerOpt (jlookup es "pingStatus") with
    | error m => rw [hpl] at hp; cases hp
    | ok pl =>
      rw [hpl] at hp
      simp only [] at hp
      cases hcat : jsOr (optGet (jlookup es "categories") "nodes") (.arr []) with
      | arr catl =>
        rw [hcat] at hp
        simp only [] at hp
        cases htag : jsOr (optGet (jlookup es "tags") "nodes") (.arr []) with
        | arr tagl =>
          rw [htag] at hp
          simp only [] at hp
          cases hem : mkEmbeddedFeaturedMedia
              (optGet (jlookup es "featuredImage") "node") with
          | error m => rw [hem] at hp; cases hp
          | ok em =>
            rw [hem] at hp
            simp only [] at hp
            injection hp with hp
            rw [← hp]
            simp only []
            rw [if_neg (jsToLowerStr_ne_empty s hs)]
        | null => rw [htag] at hp; cases hp
        | bool b => rw [htag] at hp; cases hp
        | num n => rw [htag] at hp; cases hp
        | str s2 => rw [htag] at hp; cases hp
        | obj fs => rw [htag] at hp; cases hp
      | null => rw [hcat] at hp; cases hp
      | bool b => rw [hcat] at hp; cases hp
      | num n => rw [hcat] at hp; cases hp
      | str s2 => rw [hcat] at hp; cases hp
      | obj fs => rw [hcat] at hp; cases hp

/-- C6 witness: status `"PUBLISH"` lower-cases to `"publish"`. -/
theorem transformPost_defaults_witness :
    (transformPost (.obj []) = .ok
      { id := .num 0, date := .str "", date_gmt := .str "", modified := .str "",
        modified_gmt := .str "", slug := .str "", status := "publish",
        link := .str "", guid := .str "", title := .str "", content := .str "",
        excerpt := none, author := .num 0, featured_media := .num 0,
        comment_status := "closed", ping_status := "closed",
        sticky := .bool false, categories := [], tags := [],
        embeddedAuthor := none, embeddedFeaturedMedia := none, wpTerm := [],
        seo := none } ∧
    (∀ ctName, transformContentNode (.obj []) ctName = .ok
      { id := .num 0, slug := .str "", date := .str "", modified := .str "",
        link := .str "", status := "publish", title := none, content := none,
        excerpt := none, author := none, featured_media := none,
        embeddedAuthor := none, embeddedFeaturedMedia := none,
        contentType := ctName, seo := none }) ∧
    (∀ p, transformPost (.obj [("status", .str "PUBLISH")]) = .ok p →
        p.status = jsToLowerStr "PUBLISH")) :=
  transformPost_defaults [("status", .str "PUBLISH")] "PUBLISH" (by decide)
    (by decide)

end NextWP
